import Mathlib

set_option autoImplicit false

/-!
Verification of `transfer/bin/merscope_transfer.py`.

The script is embedded shallowly: the global report lists (`ERRORS`, `DELETED`,
`TRANSFERRED`) become an explicit `Report` record threaded through every
function, the command-line flags and the configuration become records, and the
filesystem together with the clock becomes a deterministic oracle record `FS`
whose fields give the outcome of each kind of operating-system call the script
performs.  A Python exception that a function catches is an `Option PyExc`
oracle outcome; an exception that escapes a function is the `Except.error` case
of its result, carrying the report accumulated so far (the global lists persist
when an exception propagates).
-/

namespace MerscopeTransfer

/-- Models a Python exception value: class name and rendered arguments. -/
structure PyExc where
  kind : String
  args : String
  deriving DecidableEq, Repr

/-- Models the module constant TEMPLATE applied with the percent operator to an
exception class name and its arguments. -/
def template (kind args : String) : String :=
  "An exception of type " ++ kind ++ " occurred. Arguments:\n" ++ args

/-- Models the module constant SUFFIX. -/
def SUFFIX : List String := ["analysis", "output", "raw_data"]

/-- Models the three global report lists ERRORS, DELETED and TRANSFERRED. -/
structure Report where
  ERRORS : List String
  DELETED : List String
  TRANSFERRED : List String
  deriving DecidableEq, Repr

/-- Models the fields of CONFIG (read once from config.json) that the
transfer and deletion logic consults. -/
structure Config where
  source : String
  target : String
  secondary : String
  minimum_age : Int
  deriving DecidableEq, Repr

/-- Models the command-line flags ARG.TRANSFER and ARG.DELETE. -/
structure Args where
  TRANSFER : Bool
  DELETE : Bool
  deriving DecidableEq, Repr

/-- Deterministic filesystem-and-clock oracle.  Each field gives the outcome of
one kind of call the script performs, keyed by the path(s) passed to the call.
The two existence checks that `delete_directory` performs after mutating the
filesystem read the dedicated fields `existsAfterRmtree` and
`existsAfterRmdir`; every other existence check in the script reads
`pathExists`.  `copytreeResult`, `rmtreeResult` and `rmdirResult` return
`none` when the call succeeds and `some err` when it raises `err`. -/
structure FS where
  pathExists : String → Bool
  isFile : String → Bool
  mtime : String → Int
  now : Int
  copytreeResult : String → String → Option PyExc
  rmtreeResult : String → Option PyExc
  existsAfterRmtree : String → Bool
  rmdirResult : String → Option PyExc
  existsAfterRmdir : String → Bool

/-- Path `source/merfish_<sfx>/<exp>` used as copy source and deletion target. -/
def catPath (cfg : Config) (sfx exp : String) : String :=
  cfg.source ++ "/merfish_" ++ sfx ++ "/" ++ exp

/-- Path `target/merfish_<sfx>/<exp>` used as copy destination. -/
def tgtPath (cfg : Config) (sfx exp : String) : String :=
  cfg.target ++ "/merfish_" ++ sfx ++ "/" ++ exp

/-- Path `secondary/<exp>` deleted after the three category copies. -/
def secPath (cfg : Config) (exp : String) : String :=
  cfg.secondary ++ "/" ++ exp

/-- Sentinel path `source/merfish_raw_data/<exp>/MERLIN_FINISHED`. -/
def sentinelPath (cfg : Config) (exp : String) : String :=
  cfg.source ++ "/merfish_raw_data/" ++ exp ++ "/MERLIN_FINISHED"

/-- Embeds `experiment_complete`: the sentinel must be a regular file, and its
age (current time minus modification time) must exceed the minimum age.  The
function overwrites the configured `minimum_age` with the constant `5 * 60`
before the comparison, exactly as the script assigns
`CONFIG['minimum_age'] = 5 * 60`. -/
def experiment_complete (cfg : Config) (fs : FS) (exp : String) : Bool :=
  let sentinel := sentinelPath cfg exp
  if ¬ fs.isFile sentinel then false
  else
    let cfg := { cfg with minimum_age := 5 * 60 }
    let age := fs.now - fs.mtime sentinel
    if age ≤ cfg.minimum_age then false else true

/-- Embeds `delete_directory`.  In delete mode the recursive tree removal is
attempted first; if it raises, an error is appended and `false` is returned.
If the directory still exists, a plain `rmdir` is attempted, whose exception
only appends an error.  If the directory still exists after that, the script
evaluates the undefined global name `ERROR`, raising an uncaught `NameError`;
this is the `Except.error` case, carrying the report accumulated so far.
Otherwise the path is appended to DELETED and `true` is returned; in
no-delete mode that happens with no filesystem call at all. -/
def delete_directory (arg : Args) (fs : FS) (base_dir : String) (st : Report) :
    Except (Report × String) (Report × Bool) :=
  if arg.DELETE then
    match fs.rmtreeResult base_dir with
    | some err =>
        .ok ({ st with ERRORS := st.ERRORS ++
                 ["Could not rmtree delete " ++ base_dir ++ "\n" ++
                  template err.kind err.args] },
             false)
    | none =>
        let st1 :=
          if fs.existsAfterRmtree base_dir then
            match fs.rmdirResult base_dir with
            | some err =>
                { st with ERRORS := st.ERRORS ++
                    ["Could not rmdir delete " ++ base_dir ++ "\n" ++
                     template err.kind err.args] }
            | none => st
          else st
        let lingering :=
          if fs.existsAfterRmtree base_dir then fs.existsAfterRmdir base_dir else false
        if lingering then .error (st1, "NameError")
        else .ok ({ st1 with DELETED := st1.DELETED ++ [base_dir] }, true)
  else
    .ok ({ st with DELETED := st.DELETED ++ [base_dir] }, true)

/-- Embeds the for-loop over SUFFIX inside `delete_experiment`: delete each
category directory in order, stopping with `false` at the first failure. -/
def delete_categories (arg : Args) (cfg : Config) (fs : FS) (exp : String) :
    List String → Report → Except (Report × String) (Report × Bool)
  | [], st => .ok (st, true)
  | sfx :: rest, st =>
    match delete_directory arg fs (catPath cfg sfx exp) st with
    | .error e => .error e
    | .ok (st1, ok) =>
      if ok then delete_categories arg cfg fs exp rest st1 else .ok (st1, false)

/-- Embeds `delete_experiment`: append the experiment to TRANSFERRED, delete
the three category directories fail-fast, and if all succeeded require the
secondary path to exist and delete it too; if anything failed, append the
final incompleteness error. -/
def delete_experiment (arg : Args) (cfg : Config) (fs : FS) (exp : String) (st : Report) :
    Except (Report × String) Report :=
  let st0 := { st with TRANSFERRED := st.TRANSFERRED ++ [exp] }
  match delete_categories arg cfg fs exp SUFFIX st0 with
  | .error e => .error e
  | .ok (st1, delete_done) =>
    match (if delete_done then
             if ¬ fs.pathExists (secPath cfg exp) then Except.ok (st1, false)
             else delete_directory arg fs (secPath cfg exp) st1
           else Except.ok (st1, delete_done)) with
    | .error e => .error e
    | .ok (st2, done2) =>
      if ¬ done2 then
        .ok { st2 with ERRORS := st2.ERRORS ++
                ["Deletion for " ++ exp ++ " is incomplete"] }
      else .ok st2

/-- Embeds the copy loop inside `handle_single_experiment`: each category is
skipped when the transfer flag is off, otherwise copied; the first copy
failure appends an error built from the exception and stops the loop with
`false`. -/
def copy_categories (arg : Args) (cfg : Config) (fs : FS) (exp : String) :
    List String → Report → Report × Bool
  | [], st => (st, true)
  | sfx :: rest, st =>
    if ¬ arg.TRANSFER then copy_categories arg cfg fs exp rest st
    else
      match fs.copytreeResult (catPath cfg sfx exp) (tgtPath cfg sfx exp) with
      | none => copy_categories arg cfg fs exp rest st
      | some err =>
        ({ st with ERRORS := st.ERRORS ++
             ["Could not copy " ++ catPath cfg sfx exp ++ "/" ++ exp ++ "\n" ++
              template err.kind err.args] },
         false)

/-- Embeds `handle_single_experiment`.  The first gate tests the existence of
the path taken from the `secondary` configuration field (the script stores
`CONFIG['secondary']` in the variable `tgt`, and the recorded message calls it
the target path); then all three category folders must exist under the source;
then the completeness check must pass; then the copy loop runs, and
`delete_experiment` is invoked exactly when the copy loop finished with
`ok_to_delete` still true. -/
def handle_single_experiment (arg : Args) (cfg : Config) (fs : FS) (exp : String) (st : Report) :
    Except (Report × String) Report :=
  if ¬ fs.pathExists cfg.secondary then
    .ok { st with ERRORS := st.ERRORS ++
            ["Could not find target path " ++ cfg.secondary] }
  else
    let missing := SUFFIX.foldl
      (fun m sfx => if ¬ fs.pathExists (catPath cfg sfx exp) then true else m) false
    if missing then .ok st
    else if ¬ experiment_complete cfg fs exp then .ok st
    else
      match copy_categories arg cfg fs exp SUFFIX st with
      | (st1, ok_to_delete) =>
        if ok_to_delete then delete_experiment arg cfg fs exp st1 else .ok st1

/-- Embeds the for-loop of `process_experiments` over the directory listing:
the entries are handled one after the other, and an exception escaping one
handler propagates, ending the loop before the remaining entries. -/
def process_experiments_loop (arg : Args) (cfg : Config) (fs : FS) :
    List String → Report → Except (Report × String) Report
  | [], st => .ok st
  | e :: rest, st =>
    match handle_single_experiment arg cfg fs e st with
    | .error err => .error err
    | .ok st1 => process_experiments_loop arg cfg fs rest st1

/-- Report state visible in the global lists when the run ends, whether the
loop returned normally or an exception escaped: the globals persist either
way. -/
def finalReport : Except (Report × String) Report → Report
  | .ok st => st
  | .error (st, _) => st

/-! Concrete fixtures used to exercise the embedding on closed inputs. -/

/-- Empty report: the state of the three global lists at process start. -/
def rEmpty : Report := ⟨[], [], []⟩

/-- Concrete configuration with short root paths. -/
def cfgX : Config := ⟨"S", "T", "C", 0⟩

/-- Both flags off: simulate-only run. -/
def aOff : Args := ⟨false, false⟩

/-- Transfer on, delete off. -/
def aT : Args := ⟨true, false⟩

/-- Transfer off, delete on. -/
def aDel : Args := ⟨false, true⟩

/-- Oracle where every path exists, every call succeeds, every removal takes
effect, and the sentinel is 1000 seconds old. -/
def fsAllGood : FS :=
  ⟨fun _ => true, fun _ => true, fun _ => 0, 1000,
   fun _ _ => none, fun _ => none, fun _ => false, fun _ => none, fun _ => false⟩

/-- Oracle where the target root `T` and the analysis category of `E1` are
absent, everything else as in `fsAllGood`. -/
def fsNoTarget : FS :=
  { fsAllGood with pathExists := fun p =>
      if p = "T" then false else if p = "S/merfish_analysis/E1" then false else true }

/-- Oracle where the directory handed to `rmtree` lingers after both removal
attempts. -/
def fsLinger : FS :=
  { fsAllGood with existsAfterRmtree := fun _ => true, existsAfterRmdir := fun _ => true }

/-! Helper lemmas about the loops of the embedding. -/

/-- Folding disjunction over a list is `any`. -/
theorem foldl_or_any (q : String → Bool) :
    ∀ (l : List String) (b : Bool),
      List.foldl (fun m s => m || q s) b l = (b || l.any q) := by
  intro l
  induction l with
  | nil => intro b; simp
  | cons s rest ih => intro b; simp [List.foldl, ih, Bool.or_assoc]

/-- The `missing` accumulator loop is an any-fold. -/
theorem foldl_missing_flag (p : String → Bool) (l : List String) (b : Bool) :
    List.foldl (fun m s => if ¬ p s then true else m) b l =
      (b || l.any fun s => ! p s) := by
  have hfun : (fun (m : Bool) (s : String) => if ¬ p s then true else m) =
      fun m s => m || ! p s := by
    funext m s
    by_cases h : p s <;> simp [h]
  rw [hfun, foldl_or_any]

/-- The `missing` flag computed by the orchestrator is an any-test over the
three categories. -/
theorem handle_missing_eq (cfg : Config) (fs : FS) (exp : String) :
    List.foldl (fun m sfx => if ¬ fs.pathExists (catPath cfg sfx exp) then true else m)
      false SUFFIX = (SUFFIX.any fun sfx => ! fs.pathExists (catPath cfg sfx exp)) := by
  rw [foldl_missing_flag]
  rw [Bool.false_or]

/-- Oracle where only the secondary root `C` is absent. -/
def fsNoSecondaryRoot : FS :=
  { fsAllGood with pathExists := fun p => if p = "C" then false else true }

/-- C3: the completeness check returns ready exactly when the sentinel file
exists and its last-modified age strictly exceeds 300 seconds, and the
`minimum_age` value supplied in the configuration has no effect on the
result. -/
theorem c3_experiment_complete_iff (cfg : Config) (fs : FS) (exp : String) :
    (experiment_complete cfg fs exp = true ↔
      (fs.isFile (sentinelPath cfg exp) = true ∧
        300 < fs.now - fs.mtime (sentinelPath cfg exp))) ∧
    ∀ a : Int, experiment_complete { cfg with minimum_age := a } fs exp =
      experiment_complete cfg fs exp := by
  constructor
  · unfold experiment_complete
    by_cases h : fs.isFile (sentinelPath cfg exp)
    · rcases le_or_lt (fs.now - fs.mtime (sentinelPath cfg exp)) 300 with hle | hlt
      · simp [h, hle]
      · simp [h]
        omega
    · simp [h]
  · intro a
    rfl

/-- C4: when the initial path gate passes but some required category folder is
missing, the orchestrator leaves the report untouched: no copy, no deletion,
no appended entry. -/
theorem c4_missing_category_noop (arg : Args) (cfg : Config) (fs : FS) (exp : String)
    (st : Report)
    (hgate : fs.pathExists cfg.secondary = true)
    (hmiss : ∃ sfx ∈ SUFFIX, fs.pathExists (catPath cfg sfx exp) = false) :
    handle_single_experiment arg cfg fs exp st = .ok st ∧
    ∀ (g : String → String → Option PyExc) (rt : String → Option PyExc),
      handle_single_experiment arg cfg
        { fs with copytreeResult := g, rmtreeResult := rt } exp st = .ok st := by
  obtain ⟨sfx, hmem, hfalse⟩ := hmiss
  have hany : (SUFFIX.any fun s => ! fs.pathExists (catPath cfg s exp)) = true :=
    List.any_eq_true.mpr ⟨sfx, hmem, by simp [hfalse]⟩
  have key : ∀ fs2 : FS, fs2.pathExists = fs.pathExists →
      handle_single_experiment arg cfg fs2 exp st = .ok st := by
    intro fs2 hp
    have hany2 : (SUFFIX.any fun s => ! fs2.pathExists (catPath cfg s exp)) = true := by
      rw [hp]
      exact hany
    unfold handle_single_experiment
    simp only [handle_missing_eq]
    simp [hp, hgate, hany2]
    intro hall _
    exact absurd (hall sfx hmem) (by simp [hfalse])
  exact ⟨key fs rfl, fun g rt => key _ rfl⟩

/-- C4 witness: concrete run on an oracle whose analysis category for `E1` is
absent. -/
theorem c4_missing_category_noop_witness :
    fsNoTarget.pathExists cfgX.secondary = true ∧
    handle_single_experiment aOff cfgX fsNoTarget "E1" rEmpty = .ok rEmpty :=
  ⟨by decide, (c4_missing_category_noop aOff cfgX fsNoTarget "E1" rEmpty (by decide)
    ⟨"analysis", by decide, by decide⟩).1⟩

/-- C2 (amended): the first gate of the orchestrator tests the existence of
the secondary root, not the target root; when the secondary root is absent an
error naming it as the target path is recorded and processing stops with no
other effect. -/
theorem c2_secondary_gate (arg : Args) (cfg : Config) (fs : FS) (exp : String) (st : Report)
    (h : fs.pathExists cfg.secondary = false) :
    handle_single_experiment arg cfg fs exp st =
      .ok { st with ERRORS := st.ERRORS ++
              ["Could not find target path " ++ cfg.secondary] } := by
  unfold handle_single_experiment
  simp [h]

/-- C2 witness: concrete run on an oracle whose secondary root is absent. -/
theorem c2_secondary_gate_witness :
    handle_single_experiment aOff cfgX fsNoSecondaryRoot "E1" rEmpty =
      .ok { rEmpty with ERRORS := ["Could not find target path C"] } :=
  c2_secondary_gate aOff cfgX fsNoSecondaryRoot "E1" rEmpty (by decide)

/-- C2 counterexample: on an oracle where the configured target root `T` does
not exist (while the secondary root does), the orchestrator records no error
and proceeds past the first gate, refuting the claim that the first gate
checks the target root. -/
theorem c2_target_gate_counterexample :
    fsNoTarget.pathExists cfgX.target = false ∧
    handle_single_experiment aOff cfgX fsNoTarget "E1" rEmpty = .ok rEmpty ∧
    (finalReport (handle_single_experiment aOff cfgX fsNoTarget "E1" rEmpty)).ERRORS = [] :=
  ⟨by decide, rfl, rfl⟩

/-- C8: when a directory handed to the tree removal lingers after both the
recursive removal and the plain-rmdir fallback, the script evaluates the
undefined name ERROR: instead of appending an anomaly error it raises an
uncaught NameError (first conjunct, with the error payload showing that
nothing was recorded); when the directory is gone after the fallback, the
function returns normally (second conjunct). -/
theorem c8_lingering_crash :
    delete_directory aDel fsLinger "D" rEmpty = .error (rEmpty, "NameError") ∧
    delete_directory aDel { fsLinger with existsAfterRmdir := fun _ => false } "D" rEmpty =
      .ok ({ rEmpty with DELETED := ["D"] }, true) :=
  ⟨rfl, rfl⟩

/-- Report part of a `delete_directory` or `delete_categories` result,
whether it returned or raised. -/
def exReport : Except (Report × String) (Report × Bool) → Report
  | .ok (st, _) => st
  | .error (st, _) => st

/-- `delete_directory` never touches the TRANSFERRED list. -/
theorem delete_directory_transferred (arg : Args) (fs : FS) (p : String) (st : Report) :
    (exReport (delete_directory arg fs p st)).TRANSFERRED = st.TRANSFERRED := by
  simp only [delete_directory]
  repeat' split
  all_goals rfl

/-- The category-deletion loop never touches the TRANSFERRED list. -/
theorem delete_categories_transferred (arg : Args) (cfg : Config) (fs : FS) (exp : String) :
    ∀ (l : List String) (st : Report),
      (exReport (delete_categories arg cfg fs exp l st)).TRANSFERRED = st.TRANSFERRED := by
  intro l
  induction l with
  | nil => intro st; rfl
  | cons s rest ih =>
    intro st
    have hdd := delete_directory_transferred arg fs (catPath cfg s exp) st
    unfold delete_categories
    cases hd : delete_directory arg fs (catPath cfg s exp) st with
    | error e =>
      rcases e with ⟨est, m⟩
      rw [hd] at hdd
      simpa [exReport] using hdd
    | ok pr =>
      rcases pr with ⟨st1, b⟩
      rw [hd] at hdd
      cases b
      · simpa [exReport] using hdd
      · simp only [exReport] at hdd
        simp [ih st1, hdd]

/-- `delete_experiment` appends exactly the experiment name to TRANSFERRED,
whether it returns normally or the lingering-directory crash escapes. -/
theorem delete_experiment_transferred (arg : Args) (cfg : Config) (fs : FS) (exp : String)
    (st : Report) :
    (finalReport (delete_experiment arg cfg fs exp st)).TRANSFERRED =
      st.TRANSFERRED ++ [exp] := by
  unfold delete_experiment
  have hdc := delete_categories_transferred arg cfg fs exp SUFFIX
    { st with TRANSFERRED := st.TRANSFERRED ++ [exp] }
  cases h : delete_categories arg cfg fs exp SUFFIX
      { st with TRANSFERRED := st.TRANSFERRED ++ [exp] } with
  | error e =>
    rcases e with ⟨est, m⟩
    rw [h] at hdc
    simp only [exReport] at hdc
    simp [h, finalReport]
    exact hdc
  | ok pr =>
    rcases pr with ⟨st1, done⟩
    rw [h] at hdc
    simp only [exReport] at hdc
    cases done
    · simp [h, finalReport]
      exact hdc
    · by_cases hsec : fs.pathExists (secPath cfg exp)
      · have hdd := delete_directory_transferred arg fs (secPath cfg exp) st1
        cases hd : delete_directory arg fs (secPath cfg exp) st1 with
        | error e =>
          rcases e with ⟨est, m⟩
          rw [hd] at hdd
          simp only [exReport] at hdd
          simp [h, hsec, hd, finalReport, hdd, hdc]
        | ok pr2 =>
          rcases pr2 with ⟨st2, b2⟩
          rw [hd] at hdd
          simp only [exReport] at hdd
          cases b2 <;> simp [h, hsec, hd, finalReport, hdd, hdc]
      · simp [h, hsec, finalReport, hdc]

/-- With the transfer flag off, the copy loop does nothing at all. -/
theorem copy_categories_skip (arg : Args) (cfg : Config) (fs : FS) (exp : String)
    (hT : arg.TRANSFER = false) :
    ∀ (l : List String) (st : Report), copy_categories arg cfg fs exp l st = (st, true) := by
  intro l
  induction l with
  | nil => intro st; rfl
  | cons s rest ih =>
    intro st
    unfold copy_categories
    simp [hT, ih st]

/-- The copy loop never touches the TRANSFERRED or DELETED lists. -/
theorem copy_categories_keeps (arg : Args) (cfg : Config) (fs : FS) (exp : String) :
    ∀ (l : List String) (st : Report),
      ((copy_categories arg cfg fs exp l st).1).TRANSFERRED = st.TRANSFERRED ∧
      ((copy_categories arg cfg fs exp l st).1).DELETED = st.DELETED := by
  intro l
  induction l with
  | nil => intro st; exact ⟨rfl, rfl⟩
  | cons s rest ih =>
    intro st
    unfold copy_categories
    by_cases hT : arg.TRANSFER
    · cases hcp : fs.copytreeResult (catPath cfg s exp) (tgtPath cfg s exp) with
      | none => simp [hT, hcp, ih st]
      | some err => simp [hT, hcp]
    · simp [hT, ih st]

/-- `delete_directory` does not read the copy oracle. -/
theorem delete_directory_copyfield (arg : Args) (fs : FS)
    (g : String → String → Option PyExc) (p : String) (st : Report) :
    delete_directory arg { fs with copytreeResult := g } p st =
      delete_directory arg fs p st := rfl

/-- The category-deletion loop does not read the copy oracle. -/
theorem delete_categories_copyfield (arg : Args) (cfg : Config) (fs : FS)
    (g : String → String → Option PyExc) (exp : String) :
    ∀ (l : List String) (st : Report),
      delete_categories arg cfg { fs with copytreeResult := g } exp l st =
        delete_categories arg cfg fs exp l st := by
  intro l
  induction l with
  | nil => intro st; rfl
  | cons s rest ih =>
    intro st
    unfold delete_categories
    rw [delete_directory_copyfield]
    cases delete_directory arg fs (catPath cfg s exp) st with
    | error e => rfl
    | ok pr =>
      rcases pr with ⟨st1, b⟩
      cases b <;> simp [ih]

/-- Replacing the copy oracle leaves the existence oracle unchanged. -/
theorem copyfield_pathExists (fs : FS) (g : String → String → Option PyExc) :
    ({ fs with copytreeResult := g } : FS).pathExists = fs.pathExists := rfl

/-- The completeness check does not read the copy oracle. -/
theorem experiment_complete_copyfield (cfg : Config) (fs : FS)
    (g : String → String → Option PyExc) (exp : String) :
    experiment_complete cfg { fs with copytreeResult := g } exp =
      experiment_complete cfg fs exp := rfl

/-- `delete_experiment` does not read the copy oracle. -/
theorem delete_experiment_copyfield (arg : Args) (cfg : Config) (fs : FS)
    (g : String → String → Option PyExc) (exp : String) (st : Report) :
    delete_experiment arg cfg { fs with copytreeResult := g } exp st =
      delete_experiment arg cfg fs exp st := by
  unfold delete_experiment
  simp only [delete_categories_copyfield, delete_directory_copyfield, copyfield_pathExists]

/-- C10: the experiment name is appended to the transferred list exactly when
the deletion phase is entered, that is when the three gates pass and the copy
loop finishes with the ok flag still set; in particular a failed partial copy
in real-transfer mode leaves the transferred list unchanged. -/
theorem c10_transferred_iff_deletion (arg : Args) (cfg : Config) (fs : FS) (exp : String)
    (st : Report) :
    (finalReport (handle_single_experiment arg cfg fs exp st)).TRANSFERRED =
      if fs.pathExists cfg.secondary &&
         !(SUFFIX.any fun sfx => ! fs.pathExists (catPath cfg sfx exp)) &&
         experiment_complete cfg fs exp &&
         (copy_categories arg cfg fs exp SUFFIX st).2
      then st.TRANSFERRED ++ [exp] else st.TRANSFERRED := by
  unfold handle_single_experiment
  simp only [handle_missing_eq]
  by_cases h1 : fs.pathExists cfg.secondary
  · by_cases h2 : (SUFFIX.any fun sfx => ! fs.pathExists (catPath cfg sfx exp)) = true
    · simp [h1, h2, finalReport]
    · by_cases h3 : experiment_complete cfg fs exp
      · have hk := (copy_categories_keeps arg cfg fs exp SUFFIX st).1
        rcases hcp : copy_categories arg cfg fs exp SUFFIX st with ⟨st1, ok⟩
        rw [hcp] at hk
        simp only [] at hk
        cases ok
        · simp [h1, h2, h3, hcp, finalReport, hk]
        · simp [h1, h2, h3, hcp, delete_experiment_transferred, hk]
      · simp [h1, h2, h3, finalReport]
  · simp [h1, finalReport]

/-- C5: when an experiment reaches the transfer step with the transfer flag
off, its name is still appended to the transferred list, and the run consults
the copy oracle nowhere: the whole outcome is unchanged under any replacement
of the copy oracle. -/
theorem c5_simulated_transfer (arg : Args) (cfg : Config) (fs : FS) (exp : String)
    (st : Report)
    (hT : arg.TRANSFER = false)
    (h1 : fs.pathExists cfg.secondary = true)
    (h2 : ∀ sfx ∈ SUFFIX, fs.pathExists (catPath cfg sfx exp) = true)
    (h3 : experiment_complete cfg fs exp = true) :
    (finalReport (handle_single_experiment arg cfg fs exp st)).TRANSFERRED =
      st.TRANSFERRED ++ [exp] ∧
    ∀ g, handle_single_experiment arg cfg { fs with copytreeResult := g } exp st =
      handle_single_experiment arg cfg fs exp st := by
  have hany : (SUFFIX.any fun s => ! fs.pathExists (catPath cfg s exp)) = false := by
    simp only [List.any_eq_false]
    intro x hx
    simp [h2 x hx]
  constructor
  · unfold handle_single_experiment
    simp only [handle_missing_eq]
    simp [h1, hany, h3, copy_categories_skip arg cfg fs exp hT,
      delete_experiment_transferred]
  · intro g
    unfold handle_single_experiment
    simp only [copy_categories_skip arg cfg { fs with copytreeResult := g } exp hT,
      copy_categories_skip arg cfg fs exp hT, delete_experiment_copyfield,
      experiment_complete_copyfield, copyfield_pathExists]

/-- C5 witness: dry run on the all-good oracle appends `E1` to the
transferred list. -/
theorem c5_simulated_transfer_witness :
    (finalReport (handle_single_experiment aOff cfgX fsAllGood "E1" rEmpty)).TRANSFERRED =
      rEmpty.TRANSFERRED ++ ["E1"] :=
  (c5_simulated_transfer aOff cfgX fsAllGood "E1" rEmpty rfl rfl
    (fun _ _ => rfl) (by decide)).1

/-- Concrete exception used by the failing oracles. -/
def excX : PyExc := ⟨"OSError", "(13,)"⟩

/-- Oracle where copying the analysis category of `E1` raises. -/
def fsCopyFail : FS :=
  { fsAllGood with copytreeResult := fun src _ =>
      if src = "S/merfish_analysis/E1" then some excX else none }

/-- Error message recorded for the failed analysis copy of `E1`. -/
def copyFailMsg : String :=
  "Could not copy S/merfish_analysis/E1/E1\nAn exception of type OSError occurred. Arguments:\n(13,)"

/-- Report after the failed analysis copy of `E1`. -/
def stCopyFail : Report := ⟨[copyFailMsg], [], []⟩

/-- C1: the deletion engine runs only when every category copy succeeded or
transfer was skipped by configuration.  First conjunct: with the transfer
flag on, once a category copy raises, the loop records one error naming the
exception kind and arguments and stops, whatever categories follow.  Second
conjunct: under the three gates, a failed copy loop makes the orchestrator
stop without touching the transferred and deleted lists, and a successful
copy loop hands its state to the deletion engine.  Third conjunct: with the
transfer flag off the copy loop is a no-op reporting success. -/
theorem c1_copy_gate (arg : Args) (cfg : Config) (fs : FS) (exp : String) :
    (∀ (pre : List String) (s : String) (post : List String) (err : PyExc) (st : Report),
      arg.TRANSFER = true →
      (∀ s2 ∈ pre, fs.copytreeResult (catPath cfg s2 exp) (tgtPath cfg s2 exp) = none) →
      fs.copytreeResult (catPath cfg s exp) (tgtPath cfg s exp) = some err →
      copy_categories arg cfg fs exp (pre ++ s :: post) st =
        ({ st with ERRORS := st.ERRORS ++
             ["Could not copy " ++ catPath cfg s exp ++ "/" ++ exp ++ "\n" ++
              template err.kind err.args] }, false)) ∧
    (∀ (st st1 : Report),
      fs.pathExists cfg.secondary = true →
      (∀ sfx ∈ SUFFIX, fs.pathExists (catPath cfg sfx exp) = true) →
      experiment_complete cfg fs exp = true →
      (copy_categories arg cfg fs exp SUFFIX st = (st1, false) →
        handle_single_experiment arg cfg fs exp st = .ok st1 ∧
        st1.TRANSFERRED = st.TRANSFERRED ∧ st1.DELETED = st.DELETED) ∧
      (copy_categories arg cfg fs exp SUFFIX st = (st1, true) →
        handle_single_experiment arg cfg fs exp st = delete_experiment arg cfg fs exp st1)) ∧
    (arg.TRANSFER = false →
      ∀ st : Report, copy_categories arg cfg fs exp SUFFIX st = (st, true)) := by
  refine ⟨?_, ?_, fun hT st => copy_categories_skip arg cfg fs exp hT SUFFIX st⟩
  · intro pre
    induction pre with
    | nil =>
      intro s post err st hT _ hfail
      unfold copy_categories
      simp [hT, hfail]
    | cons p pre2 ih =>
      intro s post err st hT hpre hfail
      have hp : fs.copytreeResult (catPath cfg p exp) (tgtPath cfg p exp) = none :=
        hpre p (by simp)
      have hrest : ∀ s2 ∈ pre2,
          fs.copytreeResult (catPath cfg s2 exp) (tgtPath cfg s2 exp) = none :=
        fun s2 hs2 => hpre s2 (by simp [hs2])
      unfold copy_categories
      simp [hT, hp, ih s post err st hT hrest hfail]
  · intro st st1 h1 h2 h3
    have hany : (SUFFIX.any fun s => ! fs.pathExists (catPath cfg s exp)) = false := by
      simp only [List.any_eq_false]
      intro x hx
      simp [h2 x hx]
    constructor
    · intro hcp
      have hk := copy_categories_keeps arg cfg fs exp SUFFIX st
      rw [hcp] at hk
      simp only [] at hk
      refine ⟨?_, hk.1, hk.2⟩
      unfold handle_single_experiment
      simp only [handle_missing_eq]
      simp [h1, hany, h3, hcp]
    · intro hcp
      unfold handle_single_experiment
      simp only [handle_missing_eq]
      simp [h1, hany, h3, hcp]

/-- C1 witness: with transfer on and the very first category copy raising, the
loop records the exception and the orchestrator skips deletion, leaving the
transferred list untouched. -/
theorem c1_copy_gate_witness :
    copy_categories aT cfgX fsCopyFail "E1" ([] ++ "analysis" :: ["output", "raw_data"])
      rEmpty = (stCopyFail, false) ∧
    handle_single_experiment aT cfgX fsCopyFail "E1" rEmpty = .ok stCopyFail ∧
    stCopyFail.TRANSFERRED = rEmpty.TRANSFERRED := by
  refine ⟨?_, ?_, ?_⟩
  · exact (c1_copy_gate aT cfgX fsCopyFail "E1").1 [] "analysis" ["output", "raw_data"]
      excX rEmpty rfl (by simp) rfl
  · exact (((c1_copy_gate aT cfgX fsCopyFail "E1").2.1 rEmpty stCopyFail rfl
      (fun _ _ => rfl) rfl).1 rfl).1
  · exact (((c1_copy_gate aT cfgX fsCopyFail "E1").2.1 rEmpty stCopyFail rfl
      (fun _ _ => rfl) rfl).1 rfl).2.1

/-- Oracle where the tree removal of the analysis category of `E1` raises. -/
def fsRmFail : FS :=
  { fsAllGood with rmtreeResult := fun p =>
      if p = "S/merfish_analysis/E1" then some excX else none }

/-- Error message recorded for the failed tree removal. -/
def rmFailMsg : String :=
  "Could not rmtree delete S/merfish_analysis/E1\nAn exception of type OSError occurred. Arguments:\n(13,)"

/-- Report after the failed analysis removal of `E1`. -/
def stRmFail : Report := ⟨[rmFailMsg], [], ["E1"]⟩

/-- C6: category deletions are fail-fast, and any failing stage ends with the
final incompleteness error.  First conjunct: the loop stops at the first
category whose deletion returns failure, whatever categories follow.  Second
conjunct: a failed category loop makes `delete_experiment` append the
incompleteness error.  Third conjunct: after a fully successful category
loop, both a missing secondary path and a failed secondary deletion append
the incompleteness error. -/
theorem c6_deletion_failfast (arg : Args) (cfg : Config) (fs : FS) (exp : String) :
    (∀ (pre : List String) (s : String) (post : List String) (st st1 st2 : Report),
      delete_categories arg cfg fs exp pre st = .ok (st1, true) →
      delete_directory arg fs (catPath cfg s exp) st1 = .ok (st2, false) →
      delete_categories arg cfg fs exp (pre ++ s :: post) st = .ok (st2, false)) ∧
    (∀ (st st1 : Report),
      delete_categories arg cfg fs exp SUFFIX
          { st with TRANSFERRED := st.TRANSFERRED ++ [exp] } = .ok (st1, false) →
      delete_experiment arg cfg fs exp st =
        .ok { st1 with ERRORS := st1.ERRORS ++
                ["Deletion for " ++ exp ++ " is incomplete"] }) ∧
    (∀ (st st1 : Report),
      delete_categories arg cfg fs exp SUFFIX
          { st with TRANSFERRED := st.TRANSFERRED ++ [exp] } = .ok (st1, true) →
      (fs.pathExists (secPath cfg exp) = false →
        delete_experiment arg cfg fs exp st =
          .ok { st1 with ERRORS := st1.ERRORS ++
                  ["Deletion for " ++ exp ++ " is incomplete"] }) ∧
      (∀ st2 : Report, fs.pathExists (secPath cfg exp) = true →
        delete_directory arg fs (secPath cfg exp) st1 = .ok (st2, false) →
        delete_experiment arg cfg fs exp st =
          .ok { st2 with ERRORS := st2.ERRORS ++
                  ["Deletion for " ++ exp ++ " is incomplete"] })) := by
  refine ⟨?_, ?_, ?_⟩
  · intro pre
    induction pre with
    | nil =>
      intro s post st st1 st2 h1 h2
      have hst : st1 = st := by
        unfold delete_categories at h1
        simp at h1
        exact h1.symm
      subst hst
      unfold delete_categories
      simp [h2]
    | cons p pre2 ih =>
      intro s post st st1 st2 h1 h2
      unfold delete_categories at h1 ⊢
      cases hd : delete_directory arg fs (catPath cfg p exp) st with
      | error e =>
        rw [hd] at h1
        simp at h1
      | ok pr =>
        rcases pr with ⟨stm, b⟩
        rw [hd] at h1
        cases b
        · simp at h1
        · simp only [] at h1
          simp at h1
          simp [hd, ih s post stm st1 st2 h1 h2]
  · intro st st1 h
    unfold delete_experiment
    simp [h]
  · intro st st1 h
    constructor
    · intro hsec
      unfold delete_experiment
      simp [h, hsec]
    · intro st2 hsec hdd
      unfold delete_experiment
      simp [h, hsec, hdd]

/-- C6 witness: with real deletion on and the first category removal raising,
the deletion loop fails at that category and the incompleteness error is
appended after the removal error. -/
theorem c6_deletion_failfast_witness :
    delete_experiment aDel cfgX fsRmFail "E1" rEmpty =
      .ok { stRmFail with ERRORS := stRmFail.ERRORS ++
              ["Deletion for E1 is incomplete"] } :=
  (c6_deletion_failfast aDel cfgX fsRmFail "E1").2.1 rEmpty stRmFail rfl

/-- Oracle where only the secondary copy `C/E1` is absent. -/
def fsNoSecondaryExp : FS :=
  { fsAllGood with pathExists := fun p => if p = "C/E1" then false else true }

/-- Report after the three dry-run category deletions of `E1`. -/
def stDryDeleted : Report :=
  ⟨[], ["S/merfish_analysis/E1", "S/merfish_output/E1", "S/merfish_raw_data/E1"], ["E1"]⟩

/-- C7: when all three category deletions succeed but the secondary path does
not exist, an error is recorded for the run and the secondary path is never
handed to the deletion routine: the result is exactly the incompleteness
error, with the deleted list left as the category loop produced it. -/
theorem c7_missing_secondary (arg : Args) (cfg : Config) (fs : FS) (exp : String)
    (st st1 : Report)
    (h1 : delete_categories arg cfg fs exp SUFFIX
        { st with TRANSFERRED := st.TRANSFERRED ++ [exp] } = .ok (st1, true))
    (h2 : fs.pathExists (secPath cfg exp) = false) :
    delete_experiment arg cfg fs exp st =
      .ok { st1 with ERRORS := st1.ERRORS ++
              ["Deletion for " ++ exp ++ " is incomplete"] } ∧
    (finalReport (delete_experiment arg cfg fs exp st)).DELETED = st1.DELETED := by
  have hmain : delete_experiment arg cfg fs exp st =
      .ok { st1 with ERRORS := st1.ERRORS ++
              ["Deletion for " ++ exp ++ " is incomplete"] } := by
    unfold delete_experiment
    simp [h1, h2]
  exact ⟨hmain, by rw [hmain]; rfl⟩

/-- C7 witness: dry-run deletions succeed for every category of `E1`, the
secondary copy is absent, and only the incompleteness error is recorded. -/
theorem c7_missing_secondary_witness :
    delete_experiment aOff cfgX fsNoSecondaryExp "E1" rEmpty =
      .ok { stDryDeleted with ERRORS := ["Deletion for E1 is incomplete"] } :=
  (c7_missing_secondary aOff cfgX fsNoSecondaryExp "E1" rEmpty stDryDeleted rfl rfl).1

/-- Oracle where the analysis category of `E1` lingers after both removal
attempts while every other removal takes effect. -/
def fs9 : FS :=
  { fsAllGood with
      existsAfterRmtree := fun p => if p = "S/merfish_analysis/E1" then true else false,
      existsAfterRmdir := fun p => if p = "S/merfish_analysis/E1" then true else false }

/-- C9 (amended): the experiment loop has no per-entry exception isolation:
once one experiment's processing raises, the loop ends with that exception
and the remaining entries are not processed. -/
theorem c9_exception_aborts (arg : Args) (cfg : Config) (fs : FS) :
    ∀ (xs : List String) (e : String) (ys : List String) (st st1 : Report)
      (err : Report × String),
      process_experiments_loop arg cfg fs xs st = .ok st1 →
      handle_single_experiment arg cfg fs e st1 = .error err →
      process_experiments_loop arg cfg fs (xs ++ e :: ys) st = .error err := by
  intro xs
  induction xs with
  | nil =>
    intro e ys st st1 err h1 h2
    have hst : st1 = st := by
      unfold process_experiments_loop at h1
      simp at h1
      exact h1.symm
    subst hst
    unfold process_experiments_loop
    simp [h2]
  | cons x xs2 ih =>
    intro e ys st st1 err h1 h2
    unfold process_experiments_loop at h1 ⊢
    cases hx : handle_single_experiment arg cfg fs x st with
    | error e2 =>
      rw [hx] at h1
      simp at h1
    | ok st2 =>
      rw [hx] at h1
      simp only [] at h1
      simp [hx, ih e ys st2 st1 err h1 h2]

/-- C9 witness: with `E1` triggering the lingering-directory crash, the loop
over `[E1, E2]` ends with the NameError before reaching `E2`. -/
theorem c9_exception_aborts_witness :
    process_experiments_loop aDel cfgX fs9 ([] ++ "E1" :: ["E2"]) rEmpty =
      .error (⟨[], [], ["E1"]⟩, "NameError") :=
  c9_exception_aborts aDel cfgX fs9 [] "E1" ["E2"] rEmpty rEmpty
    (⟨[], [], ["E1"]⟩, "NameError") rfl rfl

/-- C9 counterexample: processing `E1` raises and the loop ends with the
exception, never processing `E2`, although processing `E2` by itself
succeeds and would have recorded it; exceptions from one experiment are not
isolated from the remaining experiments. -/
theorem c9_no_isolation_counterexample :
    process_experiments_loop aDel cfgX fs9 ["E1", "E2"] rEmpty =
      .error (⟨[], [], ["E1"]⟩, "NameError") ∧
    handle_single_experiment aDel cfgX fs9 "E2" rEmpty =
      .ok ⟨[], ["S/merfish_analysis/E2", "S/merfish_output/E2", "S/merfish_raw_data/E2",
                "C/E2"], ["E2"]⟩ :=
  ⟨rfl, rfl⟩

end MerscopeTransfer
